import Mathlib

/-!
Verification of the catalog core of a sound-manager backend.

The definitions below are shallow embeddings of the Rust sources under
`src/src-tauri/src/core/`.  Id-indexed `HashMap`s are modelled as
association lists (`List (Int × α)`); `HashSet`s as duplicate-free lists;
SQL tables as lists of row records.  Machine integers (`i32`) are modelled
as `Int` (none of the verified operations approach overflow).
-/

namespace SoundManager

abbrev TagId := Int
abbrev FolderId := Int
abbrev EntryId := Int

/-- The sentinel root tag id (`ROOT_TAG_ID` in `database.rs`). -/
def ROOT_TAG_ID : TagId := -1

/-- The sentinel root folder id (`ROOT_FOLDER_ID` in `database.rs`). -/
def ROOT_FOLDER_ID : FolderId := -1

/-- In-memory tag record (`Tag` in `core/database/tag.rs`).  The `children`
`HashSet<TagId>` is modelled as a duplicate-free list. -/
structure Tag where
  id : TagId
  name : String
  parentId : TagId
  position : Int
  color : Int
  children : List TagId
deriving Repr, DecidableEq

/-- `HashMap<TagId, Tag>` modelled as an association list. -/
abbrev TagMap := List (TagId × Tag)

/-- Association-list lookup, mirroring `HashMap::get`. -/
def lookupKV {α : Type} (m : List (Int × α)) (k : Int) : Option α :=
  (m.find? (fun kv => kv.1 == k)).map (fun kv => kv.2)

/-- Pointwise update of the value stored at key `k` (mirrors `HashMap::get_mut`
followed by a field write; keys are untouched). -/
def updateKV {α : Type} (m : List (Int × α)) (k : Int) (f : α → α) :
    List (Int × α) :=
  m.map (fun kv => if kv.1 == k then (kv.1, f kv.2) else kv)

/-- Map over all stored values (mirrors `HashMap::iter_mut` /
`HashMap::values_mut` loops that update every value in place). -/
def mapVals {α : Type} (m : List (Int × α)) (f : α → α) : List (Int × α) :=
  m.map (fun kv => (kv.1, f kv.2))

/-- Model-side effect of `DatabaseData::reorder_tag`
(`core/database.rs`, lines 1414-1545).  `none` models a panicking
`.unwrap()` on a missing tag.  The store transaction performs the same
position updates on the `tags` table, so the in-memory map is the state
the claim's invariant speaks about. -/
def reorder_tag (tags : TagMap) (tagId toParentId : TagId) (toPosArg : Int) :
    Option TagMap :=
  match lookupKV tags tagId with
  | none => none
  | some tag =>
    let fromPos := tag.position
    let fromParentId := tag.parentId
    match lookupKV tags toParentId with
    | none => none
    | some toParent =>
      -- move tag to the end if to_pos == -1
      let toPos : Int := if toPosArg == -1 then (toParent.children.length : Int) else toPosArg
      -- if position is not changed
      if fromParentId == toParentId && fromPos == toPos then
        some tags
      else if fromParentId == toParentId then
        -- move tag within the same parent
        let shifted :=
          if fromPos < toPos then
            -- move downwards
            mapVals tags (fun t =>
              if t.parentId == fromParentId && fromPos < t.position && t.position ≤ toPos then
                { t with position := t.position - 1 }
              else t)
          else
            -- move upwards
            mapVals tags (fun t =>
              if t.parentId == fromParentId && t.position < fromPos && toPos ≤ t.position then
                { t with position := t.position + 1 }
              else t)
        some (updateKV shifted tagId (fun t => { t with position := toPos }))
      else
        -- move tag across different parents
        let shifted := mapVals tags (fun t =>
          if t.parentId == fromParentId && fromPos < t.position then
            { t with position := t.position - 1 }
          else if t.parentId == toParentId && toPos ≤ t.position then
            { t with position := t.position + 1 }
          else t)
        let shifted := updateKV shifted tagId
          (fun t => { t with parentId := toParentId, position := toPos })
        let shifted := updateKV shifted fromParentId
          (fun t => { t with children := t.children.erase tagId })
        let shifted := updateKV shifted toParentId
          (fun t => { t with children := t.children.insert tagId })
        some shifted

/-- The positions of the children of `parentId`, read through the parent's
`children` set (the quantity whose multiset the spec constrains). -/
def childPositions (tags : TagMap) (parentId : TagId) : List Int :=
  match lookupKV tags parentId with
  | none => []
  | some t => t.children.filterMap (fun cid => (lookupKV tags cid).map (fun c => c.position))

/-- Decidable check that a parent's children's positions form the contiguous
multiset `{0, 1, …, k-1}`. -/
def contiguousPositions (tags : TagMap) (parentId : TagId) : Bool :=
  decide ((childPositions tags parentId : Multiset Int) =
    ((List.range (childPositions tags parentId).length).map Int.ofNat : Multiset Int))

/-- Decidable check of the position invariant over the whole tag map. -/
def positionInvariant (tags : TagMap) : Bool :=
  tags.all (fun kv => contiguousPositions tags kv.1)

/-- Concrete tag tree for claim C1: the root with two children,
tag 1 at position 0 and tag 2 at position 1. -/
def c1Tags : TagMap :=
  [ (ROOT_TAG_ID,
      { id := ROOT_TAG_ID, name := "", parentId := ROOT_TAG_ID, position := 0,
        color := 0, children := [1, 2] }),
    (1, { id := 1, name := "tag1", parentId := ROOT_TAG_ID, position := 0,
          color := 0, children := [] }),
    (2, { id := 2, name := "tag2", parentId := ROOT_TAG_ID, position := 1,
          color := 0, children := [] }) ]

/-- C1: after any `reorder_tag(tag_id, to_parent_id, to_pos)` that returns Ok —
including same-parent moves invoked with `to_pos = -1` — every parent's
children's position multiset is claimed to equal `{0, …, k-1}`.  On the code,
appending a tag within its own parent via `to_pos = -1` computes the target
position as `children.len()` although the tag is already one of the children,
and the resulting positions are `{0, 2}` instead of `{0, 1}`: the invariant
the claim states is violated.  This theorem evaluates the embedded
`reorder_tag` at that input: the input satisfies the position invariant, the
call succeeds, and the root's children's position multiset afterwards is
`{0, 2}`, not `{0, 1}`. -/
theorem reorder_tag_same_parent_append_breaks_contiguity :
    positionInvariant c1Tags = true ∧
    ∃ res, reorder_tag c1Tags 1 ROOT_TAG_ID (-1) = some res ∧
      (childPositions res ROOT_TAG_ID : Multiset Int) = {0, 2} ∧
      (childPositions res ROOT_TAG_ID : Multiset Int) ≠ {0, 1} := by
  refine ⟨by decide, ?_⟩
  refine ⟨_, rfl, by decide, by decide⟩

/-! ### Store rows and the error type -/

/-- The error enum of `core/database.rs` (variants relevant to the verified
operations; payloads simplified to the data the code stores in them). -/
inductive DbError where
  | tagAlreadyExists (name : String)
  | tagAlreadyExistsForEntry (tagId : TagId) (entryId : EntryId)
  | fileAlreadyExists (path : List String)
  | folderAlreadyExists (path : List String)
  | ioError
  | sqlError
deriving Repr, DecidableEq

/-- A row of the `tags` table. -/
structure TagRow where
  id : TagId
  name : String
  parent : TagId
  position : Int
  color : Int
  deleted : Bool
deriving Repr, DecidableEq

/-- A row of the `folders` table. -/
structure FolderRow where
  id : FolderId
  parent : FolderId
  name : String
  deleted : Bool
deriving Repr, DecidableEq

/-- SQLite rowid allocation for an insert (`AUTOINCREMENT`): one more than the
largest id in use. -/
def nextRowId (rows : List TagRow) : Int :=
  (rows.foldl (fun m r => max m r.id) 0) + 1

/-- `DatabaseData::new_tag` (`core/database.rs`, lines 1324-1356) over the
in-memory tag map and the `tags` table.  `none` models the panicking
`.unwrap()` on a missing root tag; an `Except.error` value is returned
together with the (unchanged) state reached at the early return. -/
def new_tag (tags : TagMap) (store : List TagRow) (name : String) :
    Option (Except DbError TagId × TagMap × List TagRow) :=
  if tags.any (fun kv => kv.2.name == name) then
    some (.error (.tagAlreadyExists name), tags, store)
  else
    match lookupKV tags ROOT_TAG_ID with
    | none => none
    | some root =>
      let position : Int := root.children.length
      let id : TagId := nextRowId store
      let store := store ++
        [{ id := id, name := name, parent := ROOT_TAG_ID, position := position,
           color := 0, deleted := false }]
      let tags := (id,
        { id := id, name := name, parentId := ROOT_TAG_ID, position := position,
          color := 0, children := [] }) :: tags
      let tags := updateKV tags ROOT_TAG_ID
        (fun t => { t with children := t.children.insert id })
      some (.ok id, tags, store)

/-- `DatabaseData::rename_tag` (`core/database.rs`, lines 1391-1405) over the
in-memory tag map and the `tags` table. -/
def rename_tag (tags : TagMap) (store : List TagRow) (tagId : TagId)
    (name : String) : Option (Except DbError Unit × TagMap × List TagRow) :=
  if tags.any (fun kv => kv.2.name == name) then
    some (.error (.tagAlreadyExists name), tags, store)
  else
    match lookupKV tags tagId with
    | none => none
    | some _ =>
      let store := store.map (fun r => if r.id == tagId then { r with name := name } else r)
      let tags := updateKV tags tagId (fun t => { t with name := name })
      some (.ok (), tags, store)

/-- If `lookupKV m k = some v` then `(k, v)` is a member of `m`. -/
theorem lookupKV_mem {α : Type} {m : List (Int × α)} {k : Int} {v : α}
    (h : lookupKV m k = some v) : (k, v) ∈ m := by
  unfold lookupKV at h
  cases hf : m.find? (fun kv => kv.1 == k) with
  | none => rw [hf] at h; simp at h
  | some kv =>
    rw [hf] at h
    have hv : kv.2 = v := Option.some.inj h
    have hkey := List.find?_some hf
    have hk : kv.1 = k := by simpa using hkey
    have hmem := List.mem_of_find?_eq_some hf
    have hkv : (k, v) = kv := by
      cases kv
      simp_all
    rw [hkv]; exact hmem

/-- C8: renaming an existing tag to its own current name fails with
`TagAlreadyExists` and leaves the tag map and the store unchanged: the
uniqueness scan in `rename_tag` runs over every tag, including the tag
being renamed itself. -/
theorem rename_tag_to_own_name_fails (tags : TagMap) (store : List TagRow)
    (tagId : TagId) (tag : Tag) (h : lookupKV tags tagId = some tag) :
    rename_tag tags store tagId tag.name =
      some (.error (.tagAlreadyExists tag.name), tags, store) := by
  have hmem : (tagId, tag) ∈ tags := lookupKV_mem h
  have hany : tags.any (fun kv => kv.2.name == tag.name) = true := by
    rw [List.any_eq_true]
    exact ⟨(tagId, tag), hmem, by simp⟩
  unfold rename_tag
  rw [hany]
  simp

/-- Concrete state for the C8 witness. -/
def c8Tags : TagMap :=
  [ (ROOT_TAG_ID,
      { id := ROOT_TAG_ID, name := "", parentId := ROOT_TAG_ID, position := 0,
        color := 0, children := [5] }),
    (5, { id := 5, name := "alpha", parentId := ROOT_TAG_ID, position := 0,
          color := 0, children := [] }) ]

/-- Witness for C8 at a concrete state: renaming tag 5 to its current name
`"alpha"` fails with `TagAlreadyExists` and changes nothing. -/
theorem rename_tag_to_own_name_fails_witness :
    rename_tag c8Tags [] 5 "alpha" =
      some (.error (.tagAlreadyExists "alpha"), c8Tags, []) :=
  rename_tag_to_own_name_fails c8Tags [] 5
    { id := 5, name := "alpha", parentId := ROOT_TAG_ID, position := 0,
      color := 0, children := [] } (by decide)

/-- C10: with the root sentinel tag (empty name) present — as created by
`Database::create` — `new_tag("")` always fails with `TagAlreadyExists`
and leaves the state unchanged, and consequently `new_tag` can only ever
succeed for a non-empty name. -/
theorem new_tag_empty_name_fails (tags : TagMap) (store : List TagRow)
    (root : Tag) (hroot : lookupKV tags ROOT_TAG_ID = some root)
    (hname : root.name = "") :
    new_tag tags store "" = some (.error (.tagAlreadyExists ""), tags, store) ∧
    ∀ (name : String) (id : TagId) (tagsOut : TagMap) (storeOut : List TagRow),
      new_tag tags store name = some (.ok id, tagsOut, storeOut) → name ≠ "" := by
  have hmem : (ROOT_TAG_ID, root) ∈ tags := lookupKV_mem hroot
  have hany : tags.any (fun kv => kv.2.name == "") = true := by
    rw [List.any_eq_true]
    exact ⟨(ROOT_TAG_ID, root), hmem, by simp [hname]⟩
  constructor
  · unfold new_tag
    rw [hany]
    simp
  · intro name id tagsOut storeOut hok hne
    subst hne
    unfold new_tag at hok
    rw [hany] at hok
    simp at hok

/-- Witness for C10 at a concrete state: with only the root tag present,
`new_tag("")` fails with `TagAlreadyExists`. -/
theorem new_tag_empty_name_fails_witness :
    new_tag [(ROOT_TAG_ID,
      { id := ROOT_TAG_ID, name := "", parentId := ROOT_TAG_ID, position := 0,
        color := 0, children := [] })] [] "" =
      some (.error (.tagAlreadyExists ""),
        [(ROOT_TAG_ID,
          { id := ROOT_TAG_ID, name := "", parentId := ROOT_TAG_ID, position := 0,
            color := 0, children := [] })], []) :=
  (new_tag_empty_name_fails _ []
    { id := ROOT_TAG_ID, name := "", parentId := ROOT_TAG_ID, position := 0,
      color := 0, children := [] } (by decide) rfl).1

/-! ### Claim C3: the store transaction of `DatabaseData::move_folder` -/

/-- The store transaction inside `DatabaseData::move_folder`
(`core/database.rs`, lines 879-888), applied to the `folders` table:
`DELETE FROM folders WHERE parent = ? AND name = ?` with parameters
`(folder.id, new_folder_name)`, then
`UPDATE folders SET parent = ?, name = ? WHERE id = ?` with parameters
`(new_parent_id, new_folder_name, folder.id)`.  Note that the DELETE's
`parent` parameter is the moved folder's **own id**, exactly as the source
passes it. -/
def move_folder_tx (rows : List FolderRow) (folderId newParentId : FolderId)
    (newName : String) : List FolderRow :=
  let rows := rows.filter (fun r => !(r.parent == folderId && r.name == newName))
  rows.map (fun r => if r.id == folderId then { r with parent := newParentId, name := newName } else r)

/-- Modelled from the spec: "inside a store transaction delete any existing
folder row at the target key then update this row's `(parent, name)`" —
the DELETE removes the row whose `(parent, name)` equals the **target** key
`(new_parent_id, new_name)`, then the moved row is updated. -/
def move_folder_tx_spec (rows : List FolderRow) (folderId newParentId : FolderId)
    (newName : String) : List FolderRow :=
  let rows := rows.filter (fun r => !(r.parent == newParentId && r.name == newName))
  rows.map (fun r => if r.id == folderId then { r with parent := newParentId, name := newName } else r)

/-- Concrete `folders` table for claim C3: the root, a folder 5 `"p"` under
the root, the moved folder 1 `"a"` under folder 5, a soft-deleted row 2 at
the target key `(-1, "a")`, and folder 1's own live child 3 named `"a"`. -/
def c3Rows : List FolderRow :=
  [ { id := ROOT_FOLDER_ID, parent := ROOT_FOLDER_ID, name := "", deleted := false },
    { id := 5, parent := ROOT_FOLDER_ID, name := "p", deleted := false },
    { id := 1, parent := 5, name := "a", deleted := false },
    { id := 2, parent := ROOT_FOLDER_ID, name := "a", deleted := true },
    { id := 3, parent := 1, name := "a", deleted := false } ]

/-- C3: the claim says the transaction first deletes the row at the target
key `(new_parent_id, new_name)`.  The code instead deletes rows with
`parent = folder.id`: moving folder 1 (named `"a"`) under the root deletes
folder 1's own child row 3 (the row at `(1, "a")`), keeps the soft-deleted
row 2 at the target key `(-1, "a")`, and then updates row 1 to `(-1, "a")`,
producing two rows with the key `(-1, "a")` — which the spec-modelled
transaction does not. -/
theorem move_folder_tx_deletes_wrong_key :
    move_folder_tx c3Rows 1 ROOT_FOLDER_ID "a" =
      [ { id := ROOT_FOLDER_ID, parent := ROOT_FOLDER_ID, name := "", deleted := false },
        { id := 5, parent := ROOT_FOLDER_ID, name := "p", deleted := false },
        { id := 1, parent := ROOT_FOLDER_ID, name := "a", deleted := false },
        { id := 2, parent := ROOT_FOLDER_ID, name := "a", deleted := true } ] ∧
    move_folder_tx_spec c3Rows 1 ROOT_FOLDER_ID "a" =
      [ { id := ROOT_FOLDER_ID, parent := ROOT_FOLDER_ID, name := "", deleted := false },
        { id := 5, parent := ROOT_FOLDER_ID, name := "p", deleted := false },
        { id := 1, parent := ROOT_FOLDER_ID, name := "a", deleted := false },
        { id := 3, parent := 1, name := "a", deleted := false } ] ∧
    move_folder_tx c3Rows 1 ROOT_FOLDER_ID "a" ≠
      move_folder_tx_spec c3Rows 1 ROOT_FOLDER_ID "a" := by
  refine ⟨by decide, by decide, by decide⟩

/-! ### Entries, folders and the in-memory model -/

/-- Audio metadata (`Metadata` in `core/database/entry.rs`). -/
structure Metadata where
  title : Option String
  artist : Option String
  album : Option String
  duration : Option Float
deriving Repr

/-- In-memory entry record (`Entry` in `core/database/entry.rs`).  Paths are
lists of components relative to the base path; `OsString` keys are `String`s.
The `tag_ids` `HashSet` is a duplicate-free list. -/
structure Entry where
  id : EntryId
  folderId : FolderId
  path : List String
  fileName : String
  metadata : Option Metadata
  tagIds : List TagId
deriving Repr

/-- In-memory folder record (`Folder` used by `core/database.rs`): parent
back-reference, relative path, and the `sub_folders` / `entries` name-keyed
maps, modelled as association lists. -/
structure Folder where
  id : FolderId
  parentId : FolderId
  name : String
  path : List String
  subFolders : List (String × FolderId)
  entries : List (String × EntryId)
deriving Repr

/-- The in-memory model (`DatabaseData` in `core/database.rs`). -/
structure DatabaseData where
  basePath : List String
  folders : List (FolderId × Folder)
  entries : List (EntryId × Entry)
  tags : TagMap
deriving Repr

/-! ### Claim C2: `DatabaseData::filter` -/

/-- `str::to_lowercase` (ASCII-faithful model). -/
def strToLower (s : String) : String := String.mk (s.toList.map Char.toLower)

/-- Substring occurrence over character lists (`str::contains`). -/
def listContainsSub (hay pat : List Char) : Bool :=
  pat.isPrefixOf hay ||
    match hay with
    | [] => false
    | _ :: t => listContainsSub t pat

/-- `hay.contains(pat)` for strings. -/
def strContainsSub (hay pat : String) : Bool := listContainsSub hay.toList pat.toList

/-- `DatabaseData::get_tag_descendants` (`core/database/filter.rs`, lines
113-121): all descendants of a tag, including itself.  The source recursion
terminates on the (acyclic) reachable states; the embedding carries fuel,
for which `tags.length` levels always suffice on such states, and treats a
missing child (a panicking `.unwrap()` in the source) as a leaf. -/
def get_tag_descendants_fuel (tags : TagMap) : Nat → TagId → List TagId
  | 0, tagId => [tagId]
  | n+1, tagId =>
    tagId :: (((lookupKV tags tagId).map Tag.children).getD []).flatMap
      (fun c => get_tag_descendants_fuel tags n c)

/-- `get_tag_descendants` at full fuel. -/
def get_tag_descendants (tags : TagMap) (tagId : TagId) : List TagId :=
  get_tag_descendants_fuel tags tags.length tagId

/-- `DatabaseData::get_folder_descendants` (`core/database/filter.rs`, lines
102-110), fuel-embedded like `get_tag_descendants`. -/
def get_folder_descendants_fuel (folders : List (FolderId × Folder)) :
    Nat → FolderId → List FolderId
  | 0, folderId => [folderId]
  | n+1, folderId =>
    folderId :: (((lookupKV folders folderId).map
        (fun f => f.subFolders.map (fun kv => kv.2))).getD []).flatMap
      (fun c => get_folder_descendants_fuel folders n c)

/-- `get_folder_descendants` at full fuel. -/
def get_folder_descendants (folders : List (FolderId × Folder)) (folderId : FolderId) :
    List FolderId :=
  get_folder_descendants_fuel folders folders.length folderId

/-- The filter request (`Filter` in `core/database/filter.rs`). -/
structure Filter where
  search : String
  tagIds : List TagId
  includeChildTags : Bool
  folderId : Option FolderId
  includeSubfolders : Bool
deriving Repr

/-- The expanded tag-id set of `DatabaseData::filter`: each listed tag id,
expanded to its descendant closure when `include_child_tags` is set
(collected into a `HashSet` in the source; only membership matters). -/
def filterTagIdSet (d : DatabaseData) (f : Filter) : List TagId :=
  f.tagIds.flatMap (fun tagId =>
    if f.includeChildTags then get_tag_descendants d.tags tagId else [tagId])

/-- The optional folder-id set of `DatabaseData::filter`, with the
root-with-subfolders bypass. -/
def filterFolderIds (d : DatabaseData) (f : Filter) : Option (List FolderId) :=
  match f.folderId with
  | none => none
  | some folderId =>
    if folderId == ROOT_FOLDER_ID && f.includeSubfolders then none
    else some (if f.includeSubfolders
      then get_folder_descendants d.folders folderId
      else [folderId])

/-- `HashSet::is_disjoint` over list-modelled sets. -/
def listDisjoint (a b : List Int) : Bool := a.all (fun x => !b.contains x)

/-- The search criterion of `DatabaseData::filter`: case-insensitive
substring match against `file_name` and, when available, `title`, `artist`,
`album`. -/
def matchSearch (e : Entry) (search : String) : Bool :=
  let s := strToLower search
  let m0 := strContainsSub (strToLower e.fileName) s
  match e.metadata with
  | none => m0
  | some md =>
    let m1 := m0 || (match md.title with
      | some t => strContainsSub (strToLower t) s
      | none => false)
    let m2 := m1 || (match md.artist with
      | some a => strContainsSub (strToLower a) s
      | none => false)
    m2 || (match md.album with
      | some al => strContainsSub (strToLower al) s
      | none => false)

/-- The per-entry `keep` predicate of `DatabaseData::filter` (lines 57-94):
folder criterion, tag criterion and search criterion composed by
conjunction. -/
def entryKeep (f : Filter) (tagIdSet : List TagId)
    (folderIds : Option (List FolderId)) (e : Entry) : Bool :=
  (match folderIds with
    | some fs => fs.contains e.folderId
    | none => true)
  && (if f.tagIds.isEmpty then true else !listDisjoint e.tagIds tagIdSet)
  && (if f.search.isEmpty then true else matchSearch e f.search)

/-- `DatabaseData::filter` (`core/database/filter.rs`, lines 17-99): `none`
is "no filter" (all three criteria absent), otherwise the ids of the entries
kept by the composed criteria, in model iteration order. -/
def filter (d : DatabaseData) (f : Filter) : Option (List EntryId) :=
  if f.search.isEmpty && (filterTagIdSet d f).isEmpty && (filterFolderIds d f).isNone
  then none
  else
    some (((d.entries.map (fun kv => kv.2)).filter
      (entryKeep f (filterTagIdSet d f) (filterFolderIds d f))).map (fun e => e.id))

/-- Descendant expansion always contains the tag itself. -/
theorem get_tag_descendants_fuel_ne_nil (tags : TagMap) (n : Nat) (tagId : TagId) :
    get_tag_descendants_fuel tags n tagId ≠ [] := by
  cases n with
  | zero => simp [get_tag_descendants_fuel]
  | succ n => simp [get_tag_descendants_fuel]

/-- `is_disjoint` over list-modelled sets says exactly that no member is
shared. -/
theorem listDisjoint_eq_true_iff (a b : List Int) :
    listDisjoint a b = true ↔ ∀ t, t ∈ a → t ∉ b := by
  unfold listDisjoint
  rw [List.all_eq_true]
  constructor
  · intro h t ht hb
    have h1 := h t ht
    have h2 : b.contains t = true := List.elem_iff.mpr hb
    rw [h2] at h1
    simp at h1
  · intro h x hx
    have hc : b.contains x = false := by
      cases hcc : b.contains x with
      | false => rfl
      | true => exact absurd (List.elem_iff.mp hcc) (h x hx)
    rw [hc]
    rfl

/-- A negated `is_disjoint` is exactly a common member. -/
theorem not_listDisjoint_iff (a b : List Int) :
    (!listDisjoint a b) = true ↔ ∃ t, t ∈ a ∧ t ∈ b := by
  cases hd : listDisjoint a b with
  | true =>
    simp only [Bool.not_true]
    constructor
    · intro h
      simp at h
    · rintro ⟨t, ht, hb⟩
      exact absurd hb ((listDisjoint_eq_true_iff a b).mp hd t ht)
  | false =>
    simp only [Bool.not_false]
    constructor
    · intro _
      by_contra hno
      push_neg at hno
      have : listDisjoint a b = true :=
        (listDisjoint_eq_true_iff a b).mpr (fun t ht hb => hno t ht hb)
      rw [hd] at this
      simp at this
    · intro _
      trivial

/-- C2: with a non-empty `tag_ids` list and no other criteria, `filter`
returns a `some` list containing exactly the ids of the entries whose
`tag_ids` set meets the expanded tag-id set — disjunctive (union) semantics
across the listed tags, not requiring an entry to carry all listed tags. -/
theorem filter_tag_criterion_disjunctive (d : DatabaseData) (f : Filter)
    (hTags : f.tagIds ≠ []) (hSearch : f.search = "") (hFolder : f.folderId = none) :
    ∃ l, filter d f = some l ∧
      ∀ i, i ∈ l ↔ ∃ e, (∃ k, (k, e) ∈ d.entries) ∧ e.id = i ∧
        ∃ t, t ∈ e.tagIds ∧ t ∈ filterTagIdSet d f := by
  have hFolderIds : filterFolderIds d f = none := by
    simp [filterFolderIds, hFolder]
  have hSet : filterTagIdSet d f ≠ [] := by
    unfold filterTagIdSet
    cases hT : f.tagIds with
    | nil => exact absurd hT hTags
    | cons a rest =>
      intro hnil
      rw [List.flatMap_cons] at hnil
      rcases List.append_eq_nil.mp hnil with ⟨h1, _⟩
      by_cases hc : f.includeChildTags
      · rw [if_pos hc] at h1
        exact get_tag_descendants_fuel_ne_nil d.tags d.tags.length a h1
      · rw [if_neg hc] at h1
        simp at h1
  have hSetEmpty : (filterTagIdSet d f).isEmpty = false := by
    cases hS : filterTagIdSet d f with
    | nil => exact absurd hS hSet
    | cons a r => rfl
  have hSearchEmpty : f.search.isEmpty = true := by rw [hSearch]; rfl
  have hTagsEmpty : f.tagIds.isEmpty = false := by
    cases hT : f.tagIds with
    | nil => exact absurd hT hTags
    | cons a r => rfl
  have hcond : (f.search.isEmpty && (filterTagIdSet d f).isEmpty
      && (filterFolderIds d f).isNone) = false := by
    rw [hSetEmpty]
    simp
  have hkeep : ∀ e, entryKeep f (filterTagIdSet d f) (filterFolderIds d f) e =
      (!listDisjoint e.tagIds (filterTagIdSet d f)) := by
    intro e
    unfold entryKeep
    rw [hFolderIds, hTagsEmpty, hSearchEmpty]
    simp
  refine ⟨((d.entries.map (fun kv => kv.2)).filter
      (entryKeep f (filterTagIdSet d f) (filterFolderIds d f))).map (fun e => e.id),
      ?_, ?_⟩
  · unfold filter
    rw [hcond]
    simp
  · intro i
    simp only [List.mem_map, List.mem_filter, List.mem_map]
    constructor
    · rintro ⟨e, ⟨⟨kv, hkv, hkve⟩, hk⟩, hid⟩
      rw [hkeep e, not_listDisjoint_iff] at hk
      obtain ⟨t, hta, htb⟩ := hk
      refine ⟨e, ⟨kv.1, ?_⟩, hid, t, hta, htb⟩
      have : kv = (kv.1, e) := by
        cases kv
        simp_all
      rw [← this]
      exact hkv
    · rintro ⟨e, ⟨k, hke⟩, hid, t, hta, htb⟩
      refine ⟨e, ⟨⟨(k, e), hke, rfl⟩, ?_⟩, hid⟩
      rw [hkeep e, not_listDisjoint_iff]
      exact ⟨t, hta, htb⟩

/-- Concrete model for the C2 witness: tag A (id 10) on entries 1 and 2,
tag B (id 11) on entries 2 and 3, all entries under the root folder. -/
def c2Data : DatabaseData :=
  { basePath := ["base"],
    folders := [(ROOT_FOLDER_ID,
      { id := ROOT_FOLDER_ID, parentId := ROOT_FOLDER_ID, name := "base",
        path := [],
        subFolders := [],
        entries := [("e1.wav", 1), ("e2.wav", 2), ("e3.wav", 3)] })],
    entries :=
      [ (1, { id := 1, folderId := ROOT_FOLDER_ID, path := ["e1.wav"],
              fileName := "e1.wav", metadata := none, tagIds := [10] }),
        (2, { id := 2, folderId := ROOT_FOLDER_ID, path := ["e2.wav"],
              fileName := "e2.wav", metadata := none, tagIds := [10, 11] }),
        (3, { id := 3, folderId := ROOT_FOLDER_ID, path := ["e3.wav"],
              fileName := "e3.wav", metadata := none, tagIds := [11] }) ],
    tags :=
      [ (ROOT_TAG_ID,
          { id := ROOT_TAG_ID, name := "", parentId := ROOT_TAG_ID, position := 0,
            color := 0, children := [10, 11] }),
        (10, { id := 10, name := "A", parentId := ROOT_TAG_ID, position := 0,
               color := 0, children := [] }),
        (11, { id := 11, name := "B", parentId := ROOT_TAG_ID, position := 1,
               color := 0, children := [] }) ] }

/-- The filter request `{tag_ids = [A, B]}` with no other criteria. -/
def c2Filter : Filter :=
  { search := "", tagIds := [10, 11], includeChildTags := false,
    folderId := none, includeSubfolders := false }

/-- Witness for C2: applying the theorem at the concrete A/B model; the
filter yields exactly the entries `{e1, e2, e3}`. -/
theorem filter_tag_criterion_disjunctive_witness :
    c2Filter.tagIds ≠ [] ∧
    (∃ l, filter c2Data c2Filter = some l ∧
      ∀ i, i ∈ l ↔ ∃ e, (∃ k, (k, e) ∈ c2Data.entries) ∧ e.id = i ∧
        ∃ t, t ∈ e.tagIds ∧ t ∈ filterTagIdSet c2Data c2Filter) ∧
    filter c2Data c2Filter = some [1, 2, 3] :=
  ⟨by decide,
   filter_tag_criterion_disjunctive c2Data c2Filter (by decide) rfl rfl,
   by decide⟩

/-! ### Claim C6: entry–tag association round trip -/

/-- A row of the `entries` table. -/
structure EntryRow where
  id : EntryId
  fileName : String
  folderId : FolderId
  deleted : Bool
deriving Repr, DecidableEq

/-- The store tables touched by the entry operations. -/
structure StoreState where
  entries : List EntryRow
  entryTag : List (EntryId × TagId)
deriving Repr, DecidableEq

/-- `DatabaseData::add_tag_for_entry` (`core/database.rs`, lines 1579-1603):
the entry's `tag_ids` set is mutated first (`HashSet::insert`, failing with
`TagAlreadyExistsForEntry` on a duplicate), then the `entry_tag` row is
inserted (a duplicate primary key is a store error).  `none` models the
panicking `.unwrap()` on a missing entry. -/
def add_tag_for_entry (d : DatabaseData) (db : StoreState) (entryId : EntryId)
    (tagId : TagId) : Option (Except DbError Unit × DatabaseData × StoreState) :=
  match lookupKV d.entries entryId with
  | none => none
  | some entry =>
    if entry.tagIds.contains tagId then
      some (.error (.tagAlreadyExistsForEntry tagId entryId), d, db)
    else
      let newEntries := updateKV d.entries entryId
        (fun e => { e with tagIds := tagId :: e.tagIds })
      let d2 := { d with entries := newEntries }
      if db.entryTag.contains (entryId, tagId) then
        some (.error .sqlError, d2, db)
      else
        some (.ok (), d2, { db with entryTag := (entryId, tagId) :: db.entryTag })

/-- `DatabaseData::remove_tag_for_entry` (`core/database.rs`, lines
1605-1627): the `entry_tag` row is deleted, then the tag id is removed from
the entry's `tag_ids` set. -/
def remove_tag_for_entry (d : DatabaseData) (db : StoreState) (entryId : EntryId)
    (tagId : TagId) : Option (Except DbError Unit × DatabaseData × StoreState) :=
  match lookupKV d.entries entryId with
  | none => none
  | some _ =>
    let newEntryTag := db.entryTag.filter (fun p => !(p.1 == entryId && p.2 == tagId))
    let db2 := { db with entryTag := newEntryTag }
    let newEntries := updateKV d.entries entryId
      (fun e => { e with tagIds := e.tagIds.erase tagId })
    let d2 := { d with entries := newEntries }
    some (.ok (), d2, db2)

/-- Looking a key up after updating it applies the update to the stored
value. -/
theorem lookupKV_updateKV {α : Type} (m : List (Int × α)) (k : Int) (f : α → α) :
    lookupKV (updateKV m k f) k = (lookupKV m k).map f := by
  induction m with
  | nil => rfl
  | cons kv rest ih =>
    cases hk : (kv.1 == k) with
    | true =>
      have hkey : kv.1 = k := beq_iff_eq.mp hk
      subst hkey
      simp [lookupKV, updateKV, List.find?_cons]
    | false =>
      have hne : ¬ kv.1 = k := by simpa using hk
      simpa [lookupKV, updateKV, List.find?_cons, hk, hne] using ih

/-- Updating a key twice with cancelling updates restores the original
association list. -/
theorem updateKV_cancel {α : Type} (m : List (Int × α)) (k : Int) (f g : α → α)
    (h : ∀ v, g (f v) = v) : updateKV (updateKV m k f) k g = m := by
  induction m with
  | nil => rfl
  | cons kv rest ih =>
    by_cases hk : (kv.1 == k) = true
    · simp only [updateKV, List.map_cons, hk, if_pos] at *
      rw [ih]
      have : (kv.1, g (f kv.2)) = kv := by
        rw [h kv.2]
      rw [this]
    · have hk2 : (kv.1 == k) = false := by
        cases hc : (kv.1 == k) with
        | true => exact absurd hc hk
        | false => rfl
      simp only [updateKV, List.map_cons, hk2, Bool.false_eq_true, if_false] at *
      rw [ih]

/-- A list that does not contain a pair is unchanged by filtering that pair
out. -/
theorem filter_ne_pair_eq_self (l : List (Int × Int)) (a b : Int)
    (h : l.contains (a, b) = false) :
    l.filter (fun p => !(p.1 == a && p.2 == b)) = l := by
  induction l with
  | nil => rfl
  | cons p rest ih =>
    have hp : ((p.1 == a && p.2 == b) : Bool) = false := by
      cases hc : ((p.1 == a && p.2 == b) : Bool) with
      | false => rfl
      | true =>
        exfalso
        have ha : p.1 = a := by
          have := (Bool.and_eq_true _ _).mp hc
          exact beq_iff_eq.mp this.1
        have hb : p.2 = b := by
          have := (Bool.and_eq_true _ _).mp hc
          exact beq_iff_eq.mp this.2
        have hpe : p = (a, b) := by
          cases p
          simp_all
        rw [hpe] at h
        have : ((a, b) :: rest).contains (a, b) = true := by
          simp [List.contains_cons]
        rw [this] at h
        simp at h
    have hrest : rest.contains (a, b) = false := by
      cases hc : rest.contains (a, b) with
      | false => rfl
      | true =>
        exfalso
        have : (p :: rest).contains (a, b) = true := by
          rw [List.contains_cons, hc]
          simp
        rw [this] at h
        simp at h
    simp only [List.filter_cons, hp, Bool.not_false, if_pos]
    rw [ih hrest]

/-- C6: for an entry `e` and a tag `t` not carried by `e` (and, as the model
invariant guarantees, no `(e, t)` row in `entry_tag`),
`add_tag_for_entry(e, t)` followed by `remove_tag_for_entry(e, t)` returns Ok
twice and restores the model and the store exactly. -/
theorem add_then_remove_tag_roundtrip (d : DatabaseData) (db : StoreState)
    (entryId : EntryId) (tagId : TagId) (entry : Entry)
    (hE : lookupKV d.entries entryId = some entry)
    (hT : entry.tagIds.contains tagId = false)
    (hRow : db.entryTag.contains (entryId, tagId) = false) :
    ∃ d1 db1,
      add_tag_for_entry d db entryId tagId = some (.ok (), d1, db1) ∧
      remove_tag_for_entry d1 db1 entryId tagId = some (.ok (), d, db) := by
  refine ⟨{ d with entries := updateKV d.entries entryId (fun e => { e with tagIds := tagId :: e.tagIds }) },
    { db with entryTag := (entryId, tagId) :: db.entryTag }, ?_, ?_⟩
  · unfold add_tag_for_entry
    rw [hE]
    simp only [hT, Bool.false_eq_true, if_false, hRow]
  · unfold remove_tag_for_entry
    have hE2 : lookupKV (updateKV d.entries entryId
        (fun e => { e with tagIds := tagId :: e.tagIds })) entryId =
        some { entry with tagIds := tagId :: entry.tagIds } := by
      rw [lookupKV_updateKV, hE]
      rfl
    simp only [hE2]
    have hdb : ((entryId, tagId) :: db.entryTag).filter
        (fun p => !(p.1 == entryId && p.2 == tagId)) = db.entryTag := by
      rw [List.filter_cons]
      simp only [beq_self_eq_true, Bool.and_self, Bool.not_true,
        Bool.false_eq_true, if_false]
      exact filter_ne_pair_eq_self db.entryTag entryId tagId hRow
    have hd : updateKV (updateKV d.entries entryId
        (fun e => { e with tagIds := tagId :: e.tagIds })) entryId
        (fun e => { e with tagIds := e.tagIds.erase tagId }) = d.entries := by
      apply updateKV_cancel
      intro v
      simp [List.erase_cons_head]
    rw [hdb, hd]

/-- Concrete model for the C6 witness. -/
def c6Data : DatabaseData :=
  { basePath := ["base"],
    folders := [],
    entries := [(7, { id := 7, folderId := ROOT_FOLDER_ID, path := ["a.wav"],
                      fileName := "a.wav", metadata := none, tagIds := [4] })],
    tags := [] }

/-- Witness for C6 at concrete state: adding tag 3 to entry 7 (which carries
only tag 4) and removing it again restores the state, both calls Ok. -/
theorem add_then_remove_tag_roundtrip_witness :
    ∃ d1 db1,
      add_tag_for_entry c6Data { entries := [], entryTag := [(7, 4)] } 7 3 =
        some (.ok (), d1, db1) ∧
      remove_tag_for_entry d1 db1 7 3 =
        some (.ok (), c6Data, { entries := [], entryTag := [(7, 4)] }) :=
  add_then_remove_tag_roundtrip c6Data { entries := [], entryTag := [(7, 4)] } 7 3
    { id := 7, folderId := ROOT_FOLDER_ID, path := ["a.wav"],
      fileName := "a.wav", metadata := none, tagIds := [4] }
    rfl (by decide) (by decide)

/-! ### Claim C9: `move_file` into the entry's current folder -/

/-- A filesystem side effect performed by a file operation. -/
inductive FsEffect where
  | renameFs (src dst : List String)
deriving Repr, DecidableEq

/-- `DatabaseData::move_entry_to_folder` (`core/database.rs`, lines
1258-1304): store transaction (delete the row at the target key, update the
moved row's `folder_id`), then relocation in the in-memory folder entry
maps and the entry's own fields. -/
def move_entry_to_folder (d : DatabaseData) (db : StoreState) (entryId : EntryId)
    (folderId : FolderId) : Option (DatabaseData × StoreState) :=
  match lookupKV d.entries entryId with
  | none => none
  | some entry =>
    match lookupKV d.folders folderId with
    | none => none
    | some newFolder =>
      let fileName := entry.fileName
      let oldFolderId := entry.folderId
      let newPath := newFolder.path ++ [fileName]
      let rows := db.entries.filter
        (fun r => !(r.folderId == folderId && r.fileName == fileName))
      let rows := rows.map
        (fun r => if r.id == entryId then { r with folderId := folderId } else r)
      match lookupKV d.folders oldFolderId with
      | none => none
      | some _ =>
        let folders := updateKV d.folders oldFolderId
          (fun fo => { fo with entries := fo.entries.filter (fun kv => !(kv.1 == fileName)) })
        let folders := updateKV folders folderId
          (fun fo => { fo with entries :=
            (fileName, entryId) :: fo.entries.filter (fun kv => !(kv.1 == fileName)) })
        let entries := updateKV d.entries entryId
          (fun e => { e with folderId := folderId, path := newPath })
        some ({ d with folders := folders, entries := entries },
          { db with entries := rows })

/-- `Database::move_file` (`core/database/files.rs`, lines 46-77).  The
filesystem is abstracted by the outcome of `new_path.exists()`
(`newPathExists`) and of the rename (`renameOk`); performed renames are
collected as effects.  When the entry already sits in the target folder the
function logs a warning and returns `Ok(())` without touching anything. -/
def move_file (d : DatabaseData) (db : StoreState) (entryId : EntryId)
    (folderId : FolderId) (force : Bool) (newPathExists renameOk : Bool) :
    Option (Except DbError Unit × DatabaseData × StoreState × List FsEffect) :=
  match lookupKV d.entries entryId with
  | none => none
  | some entry =>
    if entry.folderId == folderId then
      some (.ok (), d, db, [])
    else
      match lookupKV d.folders folderId with
      | none => none
      | some folder =>
        let newPath := d.basePath ++ (folder.path ++ [entry.fileName])
        if !force && newPathExists then
          some (.error (.fileAlreadyExists newPath), d, db, [])
        else
          let oldPath := d.basePath ++ entry.path
          if !renameOk then
            some (.error .ioError, d, db, [])
          else
            match move_entry_to_folder d db entryId folderId with
            | none => none
            | some (d2, db2) => some (.ok (), d2, db2, [.renameFs oldPath newPath])

/-- C9: moving an entry into the folder it already resides in returns
`Ok(())` for every value of `force` (and whatever the filesystem oracle
says), performs no rename and leaves the model and the store exactly as
they were. -/
theorem move_file_same_folder_noop (d : DatabaseData) (db : StoreState)
    (entryId : EntryId) (folderId : FolderId) (force newPathExists renameOk : Bool)
    (entry : Entry) (hE : lookupKV d.entries entryId = some entry)
    (hSame : entry.folderId = folderId) :
    move_file d db entryId folderId force newPathExists renameOk =
      some (.ok (), d, db, []) := by
  unfold move_file
  rw [hE]
  simp [hSame]

/-- Witness for C9: entry 7 already lives in the root folder; `move_file`
with `folder_id = -1` is a no-op Ok for `force = false` (and an existing
target path). -/
theorem move_file_same_folder_noop_witness :
    move_file c6Data { entries := [], entryTag := [(7, 4)] } 7 ROOT_FOLDER_ID
      false true true =
      some (.ok (), c6Data, { entries := [], entryTag := [(7, 4)] }, []) :=
  move_file_same_folder_noop c6Data { entries := [], entryTag := [(7, 4)] } 7
    ROOT_FOLDER_ID false true true
    { id := 7, folderId := ROOT_FOLDER_ID, path := ["a.wav"],
      fileName := "a.wav", metadata := none, tagIds := [4] }
    rfl rfl

/-! ### Claim C7: `get_first_transit_pos` error routing -/

/-- The decoder-library error variants distinguished by
`get_first_transit_pos` (`symphonia::core::errors::Error`). -/
inductive SymErr where
  | ioErr
  | decodeErr
  | otherErr
deriving Repr, DecidableEq

/-- Result of `decoder.decode(&packet)`: decoded interleaved samples, or an
error. -/
inductive DecodePacketRes where
  | okSamples (samples : List Int)
  | err (e : SymErr)
deriving Repr, DecidableEq

/-- One outcome of `reader.next_packet()` in the probe: a packet (with its
track match and decode behaviour) or a reader error.  An exhausted list
models `Ok(None)`, end of stream. -/
inductive ProbeItem where
  | packet (matching : Bool) (res : DecodePacketRes)
  | readErr (e : SymErr)
deriving Repr, DecidableEq

/-- The packet loop of `get_first_transit_pos` (`core/player.rs`, lines
280-322): per-packet scan for the first non-zero sample, accumulating the
absolute interleaved-sample index `current_pos`; the found index is divided
by the channel count to yield a frame.  Decode-stage `IoError` and
`DecodeError` skip the packet; other decode errors and every
`next_packet` error halt the probe with that error; end of stream yields
`Ok(None)`. -/
def get_first_transit_pos_loop (nChannels : Nat) :
    List ProbeItem → Nat → Except SymErr (Option Nat)
  | [], _ => .ok none
  | .readErr e :: _, _ => .error e
  | .packet matching res :: rest, currentPos =>
    if ¬ matching then get_first_transit_pos_loop nChannels rest currentPos
    else
      match res with
      | .okSamples samples =>
        match samples.findIdx? (fun x => !(x == 0)) with
        | some pos => .ok (some ((currentPos + pos) / nChannels))
        | none => get_first_transit_pos_loop nChannels rest (currentPos + samples.length)
      | .err .ioErr => get_first_transit_pos_loop nChannels rest currentPos
      | .err .decodeErr => get_first_transit_pos_loop nChannels rest currentPos
      | .err e => .error e

/-- Counterexample for C7: a packet whose decode fails with an IO error is
skipped, and the probe goes on to return the transit position found in the
next packet instead of stopping with the IO error — contradicting the claim
that "whenever an IO error occurs, the function stops iterating packets and
returns that error". -/
theorem get_first_transit_pos_io_error_skipped :
    get_first_transit_pos_loop 2
        [.packet true (.err .ioErr), .packet true (.okSamples [0, 5])] 0 =
      .ok (some 0) ∧
    get_first_transit_pos_loop 2
        [.packet true (.err .ioErr), .packet true (.okSamples [0, 5])] 0 ≠
      .error .ioErr := by
  refine ⟨rfl, fun h => Except.noConfusion h⟩

/-- C7 (amended): in `get_first_transit_pos`, decode errors **and IO errors
raised while decoding an individual packet** are skipped and probing
continues; an error returned by `next_packet` itself (including IO errors)
halts the probe and is returned, as does any other unrecoverable decode
error. -/
theorem get_first_transit_pos_error_routing (nChannels : Nat)
    (rest : List ProbeItem) (pos : Nat) (e : SymErr) :
    get_first_transit_pos_loop nChannels (.readErr e :: rest) pos = .error e ∧
    get_first_transit_pos_loop nChannels (.packet true (.err .ioErr) :: rest) pos =
      get_first_transit_pos_loop nChannels rest pos ∧
    get_first_transit_pos_loop nChannels (.packet true (.err .decodeErr) :: rest) pos =
      get_first_transit_pos_loop nChannels rest pos ∧
    get_first_transit_pos_loop nChannels (.packet true (.err .otherErr) :: rest) pos =
      .error .otherErr := by
  refine ⟨rfl, ?_, ?_, ?_⟩ <;> simp [get_first_transit_pos_loop]

/-! ### Claim C4: the file watcher's event handling -/

/-- What the filesystem says about a path at event-handling time:
a regular file, a directory, something else that exists (fifo, socket, …),
or nothing. -/
inductive PathKind where
  | file
  | dir
  | otherKind
  | absent
deriving Repr, DecidableEq

/-- An event path: its file name and its current filesystem kind. -/
structure WPath where
  name : String
  kind : PathKind
deriving Repr, DecidableEq

/-- `is_hidden_file` (`core/database.rs`, lines 1640-1642): leading dot in
the file name. -/
def is_hidden_file (p : WPath) : Bool := p.name.startsWith "."

/-- `Path::extension` on a file name: the portion after the last `.`;
none if there is no `.`, or if the only `.` is the leading character. -/
def fileExtension (name : String) : Option String :=
  match name.splitOn "." with
  | [] => none
  | [_] => none
  | ["", _] => none
  | parts => parts.getLast?

/-- `is_audio_file` (`core/database.rs`, lines 1630-1638): extension
(case-insensitive) in `{wav, mp3, flac, ogg}`. -/
def is_audio_file (p : WPath) : Bool :=
  match fileExtension p.name with
  | none => false
  | some ext =>
    let e := strToLower ext
    e == "wav" || e == "mp3" || e == "flac" || e == "ogg"

/-- `FileWatcherError` (`core/database/file_watcher.rs`, lines 18-30). -/
inductive FileWatcherError where
  | entryNotFound (p : WPath)
  | folderNotFound (p : WPath)
  | invalidPath (p : WPath) (reason : String)
  | ioErr
  | dbErr (e : DbError)
deriving Repr, DecidableEq

/-- Outcome of a watcher routine: an explicit `panic!`, a returned error
(logged and skipped by the worker loop), or a normal return. -/
inductive WOut (α : Type) where
  | panicked
  | error (e : FileWatcherError)
  | ok (a : α)
deriving Repr, DecidableEq

/-- Lift a catalog-operation result into a watcher outcome (the `?`
operator through `FileWatcherError::Database`). -/
def liftDb : Except DbError Unit → WOut Unit
  | .ok _ => .ok ()
  | .error e => .error (.dbErr e)

/-- Propagate errors, replacing a successful value by `true`
(the `…?; Ok(true)` pattern of `handle_file_event`). -/
def WOut.asTrue {α : Type} : WOut α → WOut Bool
  | .panicked => .panicked
  | .error e => .error e
  | .ok _ => .ok true

/-- The catalog operations the watcher invokes, abstracted by their
results (each returns a `Result` in the source; their own behaviour is
verified separately and is outside the watcher's cited code). -/
structure WatcherEnv where
  scanFolders : Except DbError Unit
  addEntries : WPath → Except DbError Unit
  addFolders : WPath → Except DbError Unit
  removeEntryOp : Int → Except DbError Unit
  removeFolderOp : Int → Except DbError Unit
  moveEntryOp : Int → WPath → Except DbError Unit
  moveFolderOp : WPath → WPath → Except DbError Unit
  getEntryId : WPath → Option Int
  getFolderIdByPath : WPath → Option Int
  tryExistsErr : WPath → Bool

/-- `file_created` (`core/database/file_watcher.rs`, lines 268-296). -/
def file_created (env : WatcherEnv) (p : WPath) : WOut Unit :=
  if !(p.kind == .file) then
    .error (.invalidPath p "File created event for non-file path")
  else
    match env.getEntryId p with
    | none => liftDb (env.addEntries p)
    | some _ => .ok ()

/-- `file_removed` (`core/database/file_watcher.rs`, lines 298-310). -/
def file_removed (env : WatcherEnv) (p : WPath) : WOut Unit :=
  match env.getEntryId p with
  | none => .error (.entryNotFound p)
  | some entryId => liftDb (env.removeEntryOp entryId)

/-- `folder_removed` (`core/database/file_watcher.rs`, lines 312-332). -/
def folder_removed (env : WatcherEnv) (p : WPath) : WOut Unit :=
  if !(p.kind == .dir) then
    .error (.invalidPath p "Folder removed event for non-directory path")
  else
    match env.getFolderIdByPath p with
    | none => .error (.folderNotFound p)
    | some folderId => liftDb (env.removeFolderOp folderId)

/-- `file_moved` (`core/database/file_watcher.rs`, lines 334-365). -/
def file_moved (env : WatcherEnv) (oldPath newPath : WPath) : WOut Unit :=
  if !(newPath.kind == .file) then
    .error (.invalidPath newPath "File moved event for non-file path")
  else
    match env.getEntryId oldPath with
    | some entryId => liftDb (env.moveEntryOp entryId newPath)
    | none => liftDb (env.addEntries newPath)

/-- `folder_moved` (`core/database/file_watcher.rs`, lines 367-392). -/
def folder_moved (env : WatcherEnv) (oldPath newPath : WPath) : WOut Unit :=
  if !(newPath.kind == .dir) then
    .error (.invalidPath newPath "Folder moved event for non-directory path")
  else
    liftDb (env.moveFolderOp oldPath newPath)

/-- `file_or_folder_updated` (`core/database/file_watcher.rs`, lines
223-266).  An existing path that is neither a directory nor a regular file
hits the source's `panic!("Unexpected file type …")`. -/
def file_or_folder_updated (env : WatcherEnv) (p : WPath) : WOut Bool :=
  if is_hidden_file p then .ok false
  else if env.tryExistsErr p then .error .ioErr
  else if !(p.kind == .absent) then
    if p.kind == .dir then (liftDb (env.addFolders p)).asTrue
    else if p.kind == .file then
      if !(is_audio_file p) then .ok false
      else (file_created env p).asTrue
    else .panicked
  else
    match env.getEntryId p with
    | some entryId => (liftDb (env.removeEntryOp entryId)).asTrue
    | none =>
      match env.getFolderIdByPath p with
      | some folderId => (liftDb (env.removeFolderOp folderId)).asTrue
      | none => .ok false

/-- A debounced filesystem event, with the paths its kind dispatches on
(`event.paths[0]` / `event.paths[1]` in the source). -/
inductive FileEvent where
  | createFolder
  | createFile (p : WPath)
  | removeFolder (p : WPath)
  | removeFile (p : WPath)
  | modifyNameBoth (oldPath newPath : WPath)
  | modifyNameAny (p : WPath)
  | modifyOther (p : WPath)
  | otherEvent
deriving Repr, DecidableEq

/-- `handle_file_event` (`core/database/file_watcher.rs`, lines 108-221).
A `Modify(Name(Both))` whose target path is neither a directory nor a
regular file hits the source's `panic!("Unexpected file type …")`. -/
def handle_file_event (env : WatcherEnv) (ev : FileEvent) : WOut Bool :=
  match ev with
  | .createFolder => (liftDb env.scanFolders).asTrue
  | .createFile p =>
    if is_hidden_file p || !(is_audio_file p) then .ok false
    else (file_created env p).asTrue
  | .removeFolder p =>
    if is_hidden_file p then .ok false
    else (folder_removed env p).asTrue
  | .removeFile p =>
    if is_hidden_file p || !(is_audio_file p) then .ok false
    else (file_removed env p).asTrue
  | .modifyNameBoth oldPath newPath =>
    if newPath.kind == .dir then (folder_moved env oldPath newPath).asTrue
    else if newPath.kind == .file then
      match (!(is_hidden_file oldPath) && is_audio_file oldPath,
             !(is_hidden_file newPath) && is_audio_file newPath) with
      | (true, true) => (file_moved env oldPath newPath).asTrue
      | (false, true) => (file_created env newPath).asTrue
      | (true, false) => (file_removed env oldPath).asTrue
      | _ => .ok false
    else .panicked
  | .modifyNameAny p =>
    if is_hidden_file p then .ok false
    else (file_or_folder_updated env p).asTrue
  | .modifyOther p =>
    if is_hidden_file p then .ok false
    else (file_or_folder_updated env p).asTrue
  | .otherEvent => .ok false

/-- A trivial environment in which every catalog operation succeeds. -/
def trivWatcherEnv : WatcherEnv :=
  { scanFolders := .ok ()
    addEntries := fun _ => .ok ()
    addFolders := fun _ => .ok ()
    removeEntryOp := fun _ => .ok ()
    removeFolderOp := fun _ => .ok ()
    moveEntryOp := fun _ _ => .ok ()
    moveFolderOp := fun _ _ => .ok ()
    getEntryId := fun _ => none
    getFolderIdByPath := fun _ => none
    tryExistsErr := fun _ => false }

/-- Counterexample for C4: a rename event whose target exists but is
neither a regular file nor a directory (a fifo or socket) makes
`handle_file_event` panic, contradicting "the watcher never panics". -/
theorem handle_file_event_fifo_target_panics :
    handle_file_event trivWatcherEnv
      (.modifyNameBoth { name := "a.wav", kind := .file }
        { name := "b.wav", kind := .otherKind }) = .panicked := by
  rfl

/-- The paths an event's handling dispatches on are files, directories or
absent — the condition under which the explicit `panic!`s are
unreachable. -/
def eventKindSafe : FileEvent → Bool
  | .modifyNameBoth _ newPath => newPath.kind == .dir || newPath.kind == .file
  | .modifyNameAny p => !(p.kind == .otherKind)
  | .modifyOther p => !(p.kind == .otherKind)
  | _ => true

/-- The sub-handlers other than `file_or_folder_updated` never panic. -/
theorem file_created_ne_panicked (env : WatcherEnv) (p : WPath) :
    file_created env p ≠ .panicked := by
  unfold file_created
  split
  · intro h
    cases h
  · split
    · unfold liftDb
      split <;> intro h <;> cases h
    · intro h
      cases h

/-- `liftDb` never panics. -/
theorem liftDb_ne_panicked (r : Except DbError Unit) : liftDb r ≠ .panicked := by
  unfold liftDb
  split <;> intro h <;> cases h

/-- `WOut.asTrue` panics only if its argument did. -/
theorem asTrue_ne_panicked {α : Type} (r : WOut α) (h : r ≠ .panicked) :
    r.asTrue ≠ .panicked := by
  unfold WOut.asTrue
  cases r with
  | panicked => exact absurd rfl h
  | error e => intro hc; cases hc
  | ok a => intro hc; cases hc

/-- `file_removed` never panics. -/
theorem file_removed_ne_panicked (env : WatcherEnv) (p : WPath) :
    file_removed env p ≠ .panicked := by
  unfold file_removed
  split
  · intro h; cases h
  · exact liftDb_ne_panicked _

/-- `folder_removed` never panics. -/
theorem folder_removed_ne_panicked (env : WatcherEnv) (p : WPath) :
    folder_removed env p ≠ .panicked := by
  unfold folder_removed
  split
  · intro h; cases h
  · split
    · intro h; cases h
    · exact liftDb_ne_panicked _

/-- `file_moved` never panics. -/
theorem file_moved_ne_panicked (env : WatcherEnv) (oldPath newPath : WPath) :
    file_moved env oldPath newPath ≠ .panicked := by
  unfold file_moved
  split
  · intro h; cases h
  · split <;> exact liftDb_ne_panicked _

/-- `folder_moved` never panics. -/
theorem folder_moved_ne_panicked (env : WatcherEnv) (oldPath newPath : WPath) :
    folder_moved env oldPath newPath ≠ .panicked := by
  unfold folder_moved
  split
  · intro h; cases h
  · exact liftDb_ne_panicked _

/-- `file_or_folder_updated` panics only on a path that exists as neither a
file nor a directory. -/
theorem file_or_folder_updated_ne_panicked (env : WatcherEnv) (p : WPath)
    (h : ¬ p.kind = .otherKind) :
    file_or_folder_updated env p ≠ .panicked := by
  intro hc
  unfold file_or_folder_updated at hc
  split at hc
  · cases hc
  · split at hc
    · cases hc
    · split at hc
      · split at hc
        · exact absurd hc (asTrue_ne_panicked _ (liftDb_ne_panicked _))
        · split at hc
          · split at hc
            · cases hc
            · exact absurd hc (asTrue_ne_panicked _ (file_created_ne_panicked env p))
          · rename_i hNotAbsent hNotDir hNotFile
            cases hk : p.kind with
            | otherKind => exact h hk
            | file => exact hNotFile (by rw [hk]; rfl)
            | dir => exact hNotDir (by rw [hk]; rfl)
            | absent =>
              rw [hk] at hNotAbsent
              exact absurd hNotAbsent (by decide)
      · split at hc
        · exact absurd hc (asTrue_ne_panicked _ (liftDb_ne_panicked _))
        · split at hc
          · exact absurd hc (asTrue_ne_panicked _ (liftDb_ne_panicked _))
          · cases hc

/-- C4 (amended): `handle_file_event` internalizes all errors and never
panics, provided a `Modify(Name(Both))` event's rename target exists as a
directory or regular file, and a modify/rename-any path does not exist as
something that is neither (fifo, socket): exactly those paths reach the
source's explicit `panic!("Unexpected file type …")` calls. -/
theorem handle_file_event_no_panic (env : WatcherEnv) (ev : FileEvent)
    (h : eventKindSafe ev = true) :
    handle_file_event env ev ≠ .panicked := by
  intro hc
  cases ev with
  | createFolder =>
    simp only [handle_file_event] at hc
    exact absurd hc (asTrue_ne_panicked _ (liftDb_ne_panicked _))
  | createFile p =>
    simp only [handle_file_event] at hc
    split at hc
    · cases hc
    · exact absurd hc (asTrue_ne_panicked _ (file_created_ne_panicked env p))
  | removeFolder p =>
    simp only [handle_file_event] at hc
    split at hc
    · cases hc
    · exact absurd hc (asTrue_ne_panicked _ (folder_removed_ne_panicked env p))
  | removeFile p =>
    simp only [handle_file_event] at hc
    split at hc
    · cases hc
    · exact absurd hc (asTrue_ne_panicked _ (file_removed_ne_panicked env p))
  | modifyNameBoth oldPath newPath =>
    simp only [handle_file_event] at hc
    split at hc
    · exact absurd hc (asTrue_ne_panicked _ (folder_moved_ne_panicked env oldPath newPath))
    · split at hc
      · split at hc
        · exact absurd hc (asTrue_ne_panicked _ (file_moved_ne_panicked env oldPath newPath))
        · exact absurd hc (asTrue_ne_panicked _ (file_created_ne_panicked env newPath))
        · exact absurd hc (asTrue_ne_panicked _ (file_removed_ne_panicked env oldPath))
        · cases hc
      · rename_i hNotDir hNotFile
        simp only [eventKindSafe] at h
        cases hk : newPath.kind with
        | dir => exact hNotDir (by rw [hk]; rfl)
        | file => exact hNotFile (by rw [hk]; rfl)
        | otherKind => rw [hk] at h; exact absurd h (by decide)
        | absent => rw [hk] at h; exact absurd h (by decide)
  | modifyNameAny p =>
    simp only [handle_file_event] at hc
    split at hc
    · cases hc
    · have hp : ¬ p.kind = .otherKind := by
        intro hk
        simp only [eventKindSafe] at h
        rw [hk] at h
        exact absurd h (by decide)
      exact absurd hc (asTrue_ne_panicked _ (file_or_folder_updated_ne_panicked env p hp))
  | modifyOther p =>
    simp only [handle_file_event] at hc
    split at hc
    · cases hc
    · have hp : ¬ p.kind = .otherKind := by
        intro hk
        simp only [eventKindSafe] at h
        rw [hk] at h
        exact absurd h (by decide)
      exact absurd hc (asTrue_ne_panicked _ (file_or_folder_updated_ne_panicked env p hp))
  | otherEvent =>
    simp only [handle_file_event] at hc
    cases hc

/-- Witness for the amended C4 theorem at a concrete safe event: a rename
whose target is a regular audio file does not panic. -/
theorem handle_file_event_no_panic_witness :
    eventKindSafe (.modifyNameBoth { name := "a.wav", kind := .file }
      { name := "b.wav", kind := .file }) = true ∧
    handle_file_event trivWatcherEnv
      (.modifyNameBoth { name := "a.wav", kind := .file }
        { name := "b.wav", kind := .file }) ≠ .panicked :=
  ⟨by decide,
   handle_file_event_no_panic trivWatcherEnv
     (.modifyNameBoth { name := "a.wav", kind := .file }
       { name := "b.wav", kind := .file }) (by decide)⟩

/-! ### Claim C5: the waveform worker loop -/

/-- `SAMPLING_STEP` (`core/waveform.rs`). -/
def SAMPLING_STEP : Nat := 512

/-- `BATCH_SAMPLES` (`core/waveform.rs`). -/
def BATCH_SAMPLES : Nat := 1024

/-- Result of `decoder.decode(&packet)` in the waveform worker: `n`
interleaved samples appended to the buffer, a skipped IO/decode error, or an
unrecoverable error (which raises the `end` flag). -/
inductive WfDecodeRes where
  | okSamples (n : Nat)
  | ioErr
  | decodeErr
  | fatalErr
deriving Repr, DecidableEq

/-- One `reader.next_packet()` outcome: a packet (with track match and
decode behaviour) or a reader error (which raises the `end` flag).  An
exhausted list models `Ok(None)`, end of stream — and stays exhausted on
every further call. -/
inductive WfItem where
  | packet (matching : Bool) (res : WfDecodeRes)
  | readErr
deriving Repr, DecidableEq

/-- The worker state: the pending reader outcomes, the
`available_samples_head` / `available_samples_tail` indices, the sizes of
the sample chunks handed to the callback so far, and how many reads of the
`reset` flag have happened. -/
structure WfState where
  remaining : List WfItem
  head : Nat
  tail : Nat
  emitted : List Nat
  resetReads : Nat
deriving Repr, DecidableEq

/-- The inner `// consume available samples` loop of `request_waveform`
(`core/waveform.rs`, lines 188-230): with the `end` flag, all of
`tail - head` is consumed at once, otherwise one full batch when available;
after each callback invocation `head` advances by one batch size.  Chunk
sizes are recorded; the envelope arithmetic performed on each chunk does not
influence control flow.  The `batchSize = 0` guard is a modelling device:
in the source `src_samples_per_batch = n_channels * 512 * 1024 > 0`. -/
def drainLoop (batchSize : Nat) (endFlag : Bool) (head tail : Nat)
    (emitted : List Nat) : Nat × List Nat :=
  if hbs : batchSize = 0 then (head, emitted)
  else if hn : (if endFlag then tail - head
      else if head + batchSize ≤ tail then batchSize else 0) = 0 then
    (head, emitted)
  else
    drainLoop batchSize endFlag (head + batchSize) tail
      (emitted ++ [if endFlag then tail - head
        else if head + batchSize ≤ tail then batchSize else 0])
termination_by tail - head
decreasing_by
  split at hn
  · omega
  · split at hn
    · rename_i hle
      omega
    · exact absurd rfl hn

/-- Advance the state by one drain of the inner loop. -/
def wfDrainInto (batchSize : Nat) (endFlag : Bool) (st : WfState) : WfState :=
  let r := drainLoop batchSize endFlag st.head st.tail st.emitted
  { st with head := r.1, emitted := r.2 }

/-- Result of one outer-loop iteration: the loop `break`s (only the two
`reset` checks do that), or continues with a new state. -/
inductive WfStep where
  | exited (st : WfState)
  | nextIter (st : WfState)
deriving Repr, DecidableEq

/-- The second `reset` check of an iteration followed by the consume loop
(`core/waveform.rs`, lines 182-230).  After the drain the outer loop simply
continues: the source has no `break` on the `end` flag. -/
def wfCheckAndDrain (batchSize : Nat) (reset : Nat → Bool) (endFlag : Bool)
    (st : WfState) : WfStep :=
  if reset st.resetReads then .exited { st with resetReads := st.resetReads + 1 }
  else .nextIter (wfDrainInto batchSize endFlag
    { st with resetReads := st.resetReads + 1 })

/-- One iteration of the outer `loop` of the worker spawned by
`request_waveform` (`core/waveform.rs`, lines 125-231): first `reset`
check, `next_packet`, dispatch on the outcome (a non-matching packet
`continue`s directly), second `reset` check, consume loop.  `reset` is the
sequence of values the atomic flag yields at successive reads. -/
def wfOuterIter (batchSize : Nat) (reset : Nat → Bool) (st : WfState) : WfStep :=
  if reset st.resetReads then .exited { st with resetReads := st.resetReads + 1 }
  else
    match st.remaining with
    | [] =>
      wfCheckAndDrain batchSize reset true { st with resetReads := st.resetReads + 1 }
    | .readErr :: rest =>
      wfCheckAndDrain batchSize reset true
        { st with remaining := rest, resetReads := st.resetReads + 1 }
    | .packet matching res :: rest =>
      if !matching then
        .nextIter { st with remaining := rest, resetReads := st.resetReads + 1 }
      else
        match res with
        | .okSamples n =>
          wfCheckAndDrain batchSize reset false
            { st with remaining := rest, tail := st.tail + n,
                      resetReads := st.resetReads + 1 }
        | .ioErr =>
          wfCheckAndDrain batchSize reset false
            { st with remaining := rest, resetReads := st.resetReads + 1 }
        | .decodeErr =>
          wfCheckAndDrain batchSize reset false
            { st with remaining := rest, resetReads := st.resetReads + 1 }
        | .fatalErr =>
          wfCheckAndDrain batchSize reset true
            { st with remaining := rest, resetReads := st.resetReads + 1 }

/-- Run the worker loop for at most `fuel` iterations: `some st` if the
loop exited (the worker terminated), `none` if it was still looping. -/
def runWorker (batchSize : Nat) (reset : Nat → Bool) :
    Nat → WfState → Option WfState
  | 0, _ => none
  | fuel + 1, st =>
    match wfOuterIter batchSize reset st with
    | .exited st2 => some st2
    | .nextIter st2 => runWorker batchSize reset fuel st2

/-- The drain only ever appends to the emitted chunks. -/
theorem drainLoop_emitted_extends (batchSize : Nat) (endFlag : Bool) :
    ∀ (head tail : Nat) (emitted : List Nat),
    ∃ rest, (drainLoop batchSize endFlag head tail emitted).2 = emitted ++ rest := by
  intro head tail emitted
  induction head, tail, emitted using drainLoop.induct batchSize endFlag with
  | case1 head tail emitted hbs =>
    refine ⟨[], ?_⟩
    rw [drainLoop]
    simp [hbs]
  | case2 head tail emitted hbs hn =>
    have hn2 : (if endFlag = true then tail - head
        else if head + batchSize ≤ tail then batchSize else 0) = 0 := hn
    refine ⟨[], ?_⟩
    rw [drainLoop]
    rw [dif_neg hbs, dif_pos hn2]
    simp
  | case3 head tail emitted hbs hn ih =>
    have hn2 : ¬ (if endFlag = true then tail - head
        else if head + batchSize ≤ tail then batchSize else 0) = 0 := hn
    obtain ⟨rest, hrest⟩ := ih
    have hrest2 : (drainLoop batchSize endFlag (head + batchSize) tail
        (emitted ++ [if endFlag = true then tail - head
          else if head + batchSize ≤ tail then batchSize else 0])).2 =
        (emitted ++ [if endFlag = true then tail - head
          else if head + batchSize ≤ tail then batchSize else 0]) ++ rest := hrest
    refine ⟨(if endFlag = true then tail - head
        else if head + batchSize ≤ tail then batchSize else 0) :: rest, ?_⟩
    rw [drainLoop]
    rw [dif_neg hbs, dif_neg hn2]
    rw [hrest2]
    simp

/-- With the `end` flag raised and samples pending, the first chunk handed
to the callback is the whole remainder `tail - head`. -/
theorem drainLoop_end_emits_all (batchSize head tail : Nat) (emitted : List Nat)
    (hbs : ¬ batchSize = 0) (hlt : head < tail) :
    ∃ rest, (drainLoop batchSize true head tail emitted).2 =
      (emitted ++ [tail - head]) ++ rest := by
  rw [drainLoop]
  have hn : ¬ (if true = true then tail - head
      else if head + batchSize ≤ tail then batchSize else 0) = 0 := by
    simp
    omega
  rw [dif_neg hbs, dif_neg hn]
  exact drainLoop_emitted_extends batchSize true (head + batchSize) tail
    (emitted ++ [tail - head])

/-- When the reset flag never fires, the check-and-drain step never exits
the loop. -/
theorem wfCheckAndDrain_ne_exited (batchSize : Nat) (reset : Nat → Bool)
    (hr : ∀ n, reset n = false) (endFlag : Bool) (st st2 : WfState) :
    wfCheckAndDrain batchSize reset endFlag st ≠ .exited st2 := by
  intro h
  unfold wfCheckAndDrain at h
  rw [hr st.resetReads] at h
  simp at h

/-- When the reset flag never fires, no outer-loop iteration exits: the
outer loop has no other `break`. -/
theorem wfOuterIter_ne_exited (batchSize : Nat) (reset : Nat → Bool)
    (hr : ∀ n, reset n = false) (st st2 : WfState) :
    wfOuterIter batchSize reset st ≠ .exited st2 := by
  intro h
  unfold wfOuterIter at h
  rw [hr st.resetReads] at h
  simp only [Bool.false_eq_true, if_false] at h
  cases hrem : st.remaining with
  | nil =>
    rw [hrem] at h
    exact wfCheckAndDrain_ne_exited batchSize reset hr true _ st2 h
  | cons item rest =>
    rw [hrem] at h
    cases item with
    | readErr =>
      exact wfCheckAndDrain_ne_exited batchSize reset hr true _ st2 h
    | packet matching res =>
      cases matching with
      | false => exact WfStep.noConfusion h
      | true =>
        cases res with
        | okSamples n =>
          exact wfCheckAndDrain_ne_exited batchSize reset hr false _ st2 h
        | ioErr =>
          exact wfCheckAndDrain_ne_exited batchSize reset hr false _ st2 h
        | decodeErr =>
          exact wfCheckAndDrain_ne_exited batchSize reset hr false _ st2 h
        | fatalErr =>
          exact wfCheckAndDrain_ne_exited batchSize reset hr true _ st2 h

/-- C5: the claim says that on a finite packet stream, with the reset flag
never raised, the worker delivers the remaining buffered samples and then
terminates.  The drain does happen (first conjunct: on the `end` iteration
the whole remainder `tail - head` is handed to the callback), but the
worker never terminates (second conjunct: the outer loop's only `break`s
are the two reset checks, so with `reset` always false `runWorker` exits
within no number of iterations — after end-of-stream it re-polls
`next_packet` forever). -/
theorem waveform_worker_drains_but_never_exits (batchSize : Nat)
    (reset : Nat → Bool) (hbs : ¬ batchSize = 0) (hr : ∀ n, reset n = false) :
    (∀ (head tail : Nat) (emitted : List Nat), head < tail →
      ∃ rest, (drainLoop batchSize true head tail emitted).2 =
        (emitted ++ [tail - head]) ++ rest) ∧
    (∀ (fuel : Nat) (st : WfState), runWorker batchSize reset fuel st = none) := by
  constructor
  · intro head tail emitted hlt
    exact drainLoop_end_emits_all batchSize head tail emitted hbs hlt
  · intro fuel
    induction fuel with
    | zero => intro st; rfl
    | succ n ih =>
      intro st
      cases hstep : wfOuterIter batchSize reset st with
      | exited st2 =>
        exact absurd hstep (wfOuterIter_ne_exited batchSize reset hr st st2)
      | nextIter st2 =>
        unfold runWorker
        rw [hstep]
        exact ih st2

/-- Witness for C5 at concrete inputs: one decoded packet of 700 samples
followed by end of stream, reset never raised; the end-iteration drain
hands the 700 buffered samples to the callback, and the worker loop is
still running after 50 iterations (and, by the theorem, after any number). -/
theorem waveform_worker_drains_but_never_exits_witness :
    (∃ rest, (drainLoop (1 * SAMPLING_STEP * BATCH_SAMPLES) true 0 700 []).2 =
      ([] ++ [700 - 0]) ++ rest) ∧
    runWorker (1 * SAMPLING_STEP * BATCH_SAMPLES) (fun _ => false) 50
      { remaining := [.packet true (.okSamples 700)], head := 0, tail := 0,
        emitted := [], resetReads := 0 } = none :=
  ⟨(waveform_worker_drains_but_never_exits (1 * SAMPLING_STEP * BATCH_SAMPLES)
      (fun _ => false) (by decide) (fun _ => rfl)).1 0 700 [] (by decide),
   (waveform_worker_drains_but_never_exits (1 * SAMPLING_STEP * BATCH_SAMPLES)
      (fun _ => false) (by decide) (fun _ => rfl)).2 50 _⟩

end SoundManager
